import Mathlib

/-!
Verification of the tflap terminal game (src/main.rs).

Shallow embedding conventions:
* `f32` bird coordinates are modelled as exact rationals `ℚ`;
* `u16` quantities (width, height, gap_y, score positions) as `ℕ`,
  with Rust's `saturating_sub` matching truncated `ℕ` subtraction;
* `i32` pipe positions as `ℤ`;
* the random number generator is injected: each operation that draws a
  gap position receives the drawn value(s) as explicit arguments;
* file-system effects are explicit: the `HOME` environment variable and
  the file reader are parameters of `load_highscore`, and save operations
  return the issued write as data instead of performing it.
-/

namespace Tflap

/-- Constant `BIRD_X` from the source. -/
def BIRD_X : ℕ := 10

/-- Constant `GRAVITY = 0.3` from the source, as an exact rational. -/
def GRAVITY : ℚ := 3 / 10

/-- Constant `JUMP_VELOCITY = -1.5` from the source. -/
def JUMP_VELOCITY : ℚ := -3 / 2

/-- Constant `PIPE_WIDTH` from the source. -/
def PIPE_WIDTH : ℕ := 6

/-- Constant `PIPE_GAP` from the source. -/
def PIPE_GAP : ℕ := 8

/-- Constant `PIPE_SPEED` from the source. -/
def PIPE_SPEED : ℕ := 1

/-- Rust's `as u16` cast applied to a (finite) `f32`, on our rational model:
negative values clamp to 0, otherwise truncate toward zero and saturate at
65535.  For `q ≥ 0` truncation toward zero is `q.num.toNat / q.den`. -/
def toU16 (q : ℚ) : ℕ :=
  if q < 0 then 0 else min (q.num.toNat / q.den) 65535

/-- `struct Bird { y: f32, velocity: f32 }`. -/
structure Bird where
  y : ℚ
  velocity : ℚ
deriving DecidableEq

/-- `Bird::new`. -/
def Bird.new (y : ℚ) : Bird := { y := y, velocity := 0 }

/-- `Bird::jump`: sets the velocity to `JUMP_VELOCITY` (overwriting). -/
def Bird.jump (b : Bird) : Bird := { b with velocity := JUMP_VELOCITY }

/-- `Bird::update`: `velocity += GRAVITY; y += velocity;`. -/
def Bird.update (b : Bird) : Bird :=
  { y := b.y + (b.velocity + GRAVITY), velocity := b.velocity + GRAVITY }

/-- `Bird::reset`. -/
def Bird.reset (_b : Bird) (y : ℚ) : Bird := { y := y, velocity := 0 }

/-- `struct Pipe { x: i32, gap_y: u16, passed: bool }`. -/
structure Pipe where
  x : ℤ
  gap_y : ℕ
  passed : Bool
deriving DecidableEq

/-- `Pipe::new`. -/
def Pipe.new (x : ℤ) (gap_y : ℕ) : Pipe := { x := x, gap_y := gap_y, passed := false }

/-- `Pipe::update`: `x -= PIPE_SPEED`. -/
def Pipe.update (p : Pipe) : Pipe := { p with x := p.x - (PIPE_SPEED : ℤ) }

/-- `Pipe::is_offscreen`: `x + PIPE_WIDTH <= 0`. -/
def Pipe.is_offscreen (p : Pipe) : Bool := decide (p.x + (PIPE_WIDTH : ℤ) ≤ 0)

/-- `Pipe::collides_with`: horizontal overlap of the 2-wide bird footprint with
the pipe, and the bird row outside the vertical gap `[gap_y, gap_y + PIPE_GAP)`. -/
def Pipe.collides_with (p : Pipe) (bird_x bird_y : ℕ) : Bool :=
  decide ((bird_x : ℤ) + 2 > p.x) &&
  decide ((bird_x : ℤ) < p.x + (PIPE_WIDTH : ℤ)) &&
  (decide (bird_y < p.gap_y) || decide (p.gap_y + PIPE_GAP ≤ bird_y))

/-- `Pipe::has_bird_passed`: `bird_x as i32 > x + PIPE_WIDTH`. -/
def Pipe.has_bird_passed (p : Pipe) (bird_x : ℕ) : Bool :=
  decide (p.x + (PIPE_WIDTH : ℤ) < (bird_x : ℤ))

/-- `get_highscore_path`: `Some` of `$HOME/.tflap_highscore` when the `HOME`
environment variable (passed explicitly) is set, `None` otherwise. -/
def get_highscore_path (home : Option String) : Option String :=
  home.map (fun h => h ++ "/.tflap_highscore")

/-- Rust's `str::trim`: drop whitespace from both ends of the string. -/
def rust_trim (s : String) : String :=
  ⟨((s.data.dropWhile (fun c => c.isWhitespace)).reverse.dropWhile
      (fun c => c.isWhitespace)).reverse⟩

/-- Rust's `str::parse::<u32>`: optional leading `+`, then one or more ASCII
digits, value below `2^32`; anything else fails. -/
def parse_u32 (s : String) : Option ℕ :=
  let cs := s.data
  let ds := match cs with
    | '+' :: t => t
    | _ => cs
  if ds ≠ [] ∧ ds.all (fun c => c.isDigit) then
    let n := ds.foldl (fun acc c => acc * 10 + (c.toNat - 48)) 0
    if n < 4294967296 then some n else none
  else none

/-- `load_highscore`: read the file at the highscore path (the reader is passed
explicitly), trim, parse as `u32`, defaulting to 0 at every failure point. -/
def load_highscore (home : Option String) (read : String → Option String) : ℕ :=
  match get_highscore_path home with
  | some path =>
    match read path with
    | some content => (parse_u32 (rust_trim content)).getD 0
    | none => 0
  | none => 0

/-- `save_highscore`: the write it issues, as data — `some (path, text)` when
`HOME` is set, `none` (silent no-op) otherwise. -/
def save_highscore (home : Option String) (score : ℕ) : Option (String × String) :=
  (get_highscore_path home).map (fun path => (path, toString score))

/-- `enum GameState`. -/
inductive GameState where
  | Playing : GameState
  | GameOver : GameState
deriving DecidableEq

/-- `struct Game`. -/
structure Game where
  bird : Bird
  pipes : List Pipe
  score : ℕ
  high_score : ℕ
  is_new_record : Bool
  state : GameState
  width : ℕ
  height : ℕ
deriving DecidableEq

/-- Lower bound `min_gap_y = 3` of the gap-position range drawn by
`Game::new`, `Game::spawn_pipe`, `Game::update` and `Game::reset`. -/
def min_gap_y : ℕ := 3

/-- Upper bound `self.height.saturating_sub(PIPE_GAP + 3)` of the drawn
gap-position range (truncated `ℕ` subtraction models `saturating_sub`). -/
def max_gap_y (height : ℕ) : ℕ := height - (PIPE_GAP + 3)

/-- The initial pipes built by the `for i in 0..4` loops of `Game::new` and
`Game::reset`, unrolled: positions `width as i32 / 2 + i * 40`, with the four
drawn gap positions injected as `gaps 0 .. gaps 3`. -/
def initial_pipes (width : ℕ) (gaps : ℕ → ℕ) : List Pipe :=
  [ Pipe.new ((width : ℤ) / 2 + 0 * 40) (gaps 0),
    Pipe.new ((width : ℤ) / 2 + 1 * 40) (gaps 1),
    Pipe.new ((width : ℤ) / 2 + 2 * 40) (gaps 2),
    Pipe.new ((width : ℤ) / 2 + 3 * 40) (gaps 3) ]

/-- `Game::new`: the loaded high score comes from `load_highscore` on the
ambient environment (passed explicitly); `gaps` are the four drawn gap rows. -/
def Game.new (width height : ℕ) (home : Option String)
    (read : String → Option String) (gaps : ℕ → ℕ) : Game :=
  { bird := Bird.new ((height / 2 : ℕ) : ℚ),
    pipes := initial_pipes width gaps,
    score := 0,
    high_score := load_highscore home read,
    is_new_record := false,
    state := GameState.Playing,
    width := width,
    height := height }

/-- `Game::spawn_pipe` with the drawn gap row injected: push a pipe at
`last.x + 40`, or at `width` when no pipe remains. -/
def Game.spawn_pipe (g : Game) (gap : ℕ) : Game :=
  let new_x : ℤ :=
    match g.pipes.getLast? with
    | some last => last.x + 40
    | none => (g.width : ℤ)
  { g with pipes := g.pipes ++ [Pipe.new new_x gap] }

/-- One iteration of the pipe loop in `Game::update`: move the pipe left, then
if not yet passed and the bird is strictly past its right edge, set `passed`
and report a score increment of 1. -/
def step_pipe (p : Pipe) : Pipe × ℕ :=
  let p1 := p.update
  if !p1.passed && p1.has_bird_passed BIRD_X then
    ({ p1 with passed := true }, 1)
  else
    (p1, 0)

/-- The whole pipe loop of `Game::update`: the moved/marked pipes and the
total score increment. -/
def step_pipes (l : List Pipe) : List Pipe × ℕ :=
  (l.map (fun p => (step_pipe p).1), (l.map (fun p => (step_pipe p).2)).sum)

/-- `Game::check_and_save_highscore`: if `score > high_score`, update
`high_score`, latch `is_new_record` and issue `save_highscore(score)` — the
issued save value is returned as data (`none` = no save). -/
def Game.check_and_save_highscore (g : Game) : Game × Option ℕ :=
  if g.high_score < g.score then
    ({ g with high_score := g.score, is_new_record := true }, some g.score)
  else
    (g, none)

/-- `Game::update`, one tick, with the (at most one) gap row a spawn would
draw injected as `gap`.  Returns the new state and the issued save, if any. -/
def Game.update (g : Game) (gap : ℕ) : Game × Option ℕ :=
  if g.state ≠ GameState.Playing then (g, none)
  else
    let b := g.bird.update
    if b.y < 0 ∨ g.height ≤ toU16 b.y then
      Game.check_and_save_highscore { g with bird := b, state := GameState.GameOver }
    else
      let stepped := step_pipes g.pipes
      if stepped.1.any (fun p => p.collides_with BIRD_X (toU16 b.y)) then
        Game.check_and_save_highscore
          { g with bird := b, pipes := stepped.1,
                   score := g.score + stepped.2, state := GameState.GameOver }
      else
        let culled := stepped.1.filter (fun p => !p.is_offscreen)
        let g2 : Game :=
          { g with bird := b, pipes := culled, score := g.score + stepped.2 }
        match culled.getLast? with
        | some last =>
          if last.x < (g.width : ℤ) - 20 then (g2.spawn_pipe gap, none)
          else (g2, none)
        | none =>
          ({ g2 with pipes := g2.pipes ++ [Pipe.new ((g.width : ℤ)) gap] }, none)

/-- `Game::jump`: effective only while Playing. -/
def Game.jump (g : Game) : Game :=
  if g.state = GameState.Playing then { g with bird := g.bird.jump } else g

/-- `Game::reset`: keep `high_score` (and `width`, `height`), re-center the
bird, clear score/record/pipes and rebuild the four initial pipes from the
freshly drawn `gaps`. -/
def Game.reset (g : Game) (gaps : ℕ → ℕ) : Game :=
  { g with
    bird := g.bird.reset ((g.height / 2 : ℕ) : ℚ),
    pipes := initial_pipes g.width gaps,
    score := 0,
    is_new_record := false,
    state := GameState.Playing }

/-- The exact-40 spacing relation between consecutive pipes of the live
collection. -/
def spaced40 (l : List Pipe) : Prop :=
  List.Chain' (fun p q => q.x = p.x + 40) l

/-! ## Helper lemmas -/

theorem check_and_save_fst_bird (g : Game) :
    (g.check_and_save_highscore).1.bird = g.bird := by
  unfold Game.check_and_save_highscore; split <;> rfl

theorem check_and_save_fst_pipes (g : Game) :
    (g.check_and_save_highscore).1.pipes = g.pipes := by
  unfold Game.check_and_save_highscore; split <;> rfl

theorem check_and_save_fst_score (g : Game) :
    (g.check_and_save_highscore).1.score = g.score := by
  unfold Game.check_and_save_highscore; split <;> rfl

theorem check_and_save_fst_state (g : Game) :
    (g.check_and_save_highscore).1.state = g.state := by
  unfold Game.check_and_save_highscore; split <;> rfl

theorem spawn_fields (g : Game) (gap : ℕ) :
    (g.spawn_pipe gap).bird = g.bird ∧ (g.spawn_pipe gap).score = g.score ∧
    (g.spawn_pipe gap).state = g.state ∧
    (g.spawn_pipe gap).is_new_record = g.is_new_record ∧
    (g.spawn_pipe gap).high_score = g.high_score := ⟨rfl, rfl, rfl, rfl, rfl⟩

/-! ## Claim theorems -/

/-- C6: while the state is GameOver, `Game::update` is a pure no-op — it
returns the game unchanged (every field) and issues no save — and iterating
it any number of ticks still leaves the game unchanged. -/
theorem gameover_update_noop (g : Game) (h : g.state = GameState.GameOver) :
    (∀ gap, Game.update g gap = (g, none)) ∧
    (∀ gaps : List ℕ, List.foldl (fun s gap => (Game.update s gap).1) g gaps = g) := by
  have key : ∀ gap, Game.update g gap = (g, none) := by
    intro gap
    simp [Game.update, h]
  refine ⟨key, ?_⟩
  intro gaps
  induction gaps with
  | nil => rfl
  | cons a t ih => simp only [List.foldl_cons, key a, ih]

/-- C4: on a Playing tick the bird is integrated first —
`velocity' = velocity + GRAVITY`, `y' = y + velocity'` — the resulting bird
is stored whatever else happens, and the boundary check reads the integrated
position: if it is out of bounds the tick ends in GameOver with the pipes
untouched (no movement, scoring or collision check that tick). -/
theorem bird_integration_first (g : Game) (gap : ℕ) (h : g.state = GameState.Playing) :
    (Game.update g gap).1.bird = g.bird.update ∧
    g.bird.update.velocity = g.bird.velocity + GRAVITY ∧
    g.bird.update.y = g.bird.y + (g.bird.velocity + GRAVITY) ∧
    ((g.bird.update.y < 0 ∨ g.height ≤ toU16 g.bird.update.y) →
      (Game.update g gap).1.state = GameState.GameOver ∧
      (Game.update g gap).1.pipes = g.pipes) := by
  refine ⟨?_, rfl, rfl, ?_⟩
  · unfold Game.update
    rw [if_neg (by simp [h])]
    dsimp only
    split
    · rw [check_and_save_fst_bird]
    · split
      · rw [check_and_save_fst_bird]
      · split
        · split
          · exact (spawn_fields _ _).1
          · rfl
        · rfl
  · intro hb
    unfold Game.update
    rw [if_neg (by simp [h]), if_pos hb]
    constructor
    · rw [check_and_save_fst_state]
    · rw [check_and_save_fst_pipes]

/-- Concrete GameOver state used by the witness of `gameover_update_noop`. -/
def gC6 : Game := ⟨⟨5, 1⟩, [⟨30, 5, false⟩], 2, 3, false, GameState.GameOver, 80, 20⟩

/-- Witness for `gameover_update_noop` on a concrete GameOver state. -/
theorem gameover_update_noop_witness :
    Game.update gC6 4 = (gC6, none) ∧
    List.foldl (fun s gap => (Game.update s gap).1) gC6 [1, 2, 3] = gC6 :=
  ⟨(gameover_update_noop gC6 rfl).1 4, (gameover_update_noop gC6 rfl).2 [1, 2, 3]⟩

/-- Concrete Playing state (bird above the top edge) used by the witness of
`bird_integration_first`. -/
def gC4 : Game := ⟨⟨-5, 0⟩, [⟨30, 5, false⟩], 0, 0, false, GameState.Playing, 80, 20⟩

/-- Witness for `bird_integration_first`: the integrated position is negative,
so the tick ends in GameOver with the pipes untouched. -/
theorem bird_integration_first_witness :
    (Game.update gC4 5).1.state = GameState.GameOver ∧
    (Game.update gC4 5).1.pipes = gC4.pipes :=
  (bird_integration_first gC4 5 rfl).2.2.2
    (Or.inl (by norm_num [gC4, Bird.update, GRAVITY]))

/-- C1: every random-gap draw uses the range `[min_gap_y, max_gap_y height]`.
The code bug: for `height = 13` (any height ≤ 13) the range is inverted
(`3..=2`), so `rng.gen_range` panics — the first conjunct exhibits the
inversion.  The second conjunct verifies the rest of the claim: whenever a
drawn value lies in a non-inverted range, `3 ≤ gap_y` and
`gap_y + PIPE_GAP ≤ height − 3`. -/
theorem gap_range_props :
    max_gap_y 13 < min_gap_y ∧
    (∀ h g, min_gap_y ≤ g → g ≤ max_gap_y h →
      min_gap_y ≤ max_gap_y h ∧ 3 ≤ g ∧ g + PIPE_GAP ≤ h - 3) := by
  refine ⟨by decide, ?_⟩
  intro h g h1 h2
  simp only [min_gap_y, max_gap_y, PIPE_GAP] at *
  omega

/-- Witness for `gap_range_props` at height 20, drawn gap 5. -/
theorem gap_range_props_witness :
    min_gap_y ≤ max_gap_y 20 ∧ 3 ≤ 5 ∧ 5 + PIPE_GAP ≤ 20 - 3 :=
  gap_range_props.2 20 5 (by decide) (by decide)

/-- C3: `Pipe::collides_with` reports a collision iff the horizontal overlap
test holds and the bird row is outside the half-open band
`[gap_y, gap_y + PIPE_GAP)`; under horizontal overlap, rows `gap_y` and
`gap_y + PIPE_GAP − 1` do not collide while row `gap_y + PIPE_GAP` does. -/
theorem collision_boundary_exact (p : Pipe) (bx r : ℕ) :
    (p.collides_with bx r = true ↔
      ((p.x < (bx : ℤ) + 2 ∧ (bx : ℤ) < p.x + (PIPE_WIDTH : ℤ)) ∧
        ¬(p.gap_y ≤ r ∧ r < p.gap_y + PIPE_GAP))) ∧
    (p.x < (bx : ℤ) + 2 → (bx : ℤ) < p.x + (PIPE_WIDTH : ℤ) →
      p.collides_with bx p.gap_y = false ∧
      p.collides_with bx (p.gap_y + PIPE_GAP - 1) = false ∧
      p.collides_with bx (p.gap_y + PIPE_GAP) = true) := by
  constructor
  · simp only [Pipe.collides_with, Bool.and_eq_true, Bool.or_eq_true, decide_eq_true_eq]
    omega
  · intro h1 h2
    refine ⟨?_, ?_, ?_⟩ <;>
      simp only [Pipe.collides_with, Bool.and_eq_true, Bool.or_eq_true,
        decide_eq_true_eq, Bool.and_eq_false_iff, Bool.or_eq_false_iff,
        decide_eq_false_iff_not, PIPE_GAP] <;> omega

/-- Witness for `collision_boundary_exact`: pipe at x = 9 with gap top 4,
bird column 10 — rows 4 and 11 safe, row 12 collides. -/
theorem collision_boundary_exact_witness :
    Pipe.collides_with ⟨9, 4, false⟩ 10 4 = false ∧
    Pipe.collides_with ⟨9, 4, false⟩ 10 11 = false ∧
    Pipe.collides_with ⟨9, 4, false⟩ 10 12 = true :=
  (collision_boundary_exact ⟨9, 4, false⟩ 10 0).2 (by decide) (by decide)

/-- C7: `Game::reset` keeps `high_score` (it takes no access to storage in
this model, so nothing is reloaded), zeroes the score, clears the record
flag, returns to Playing, re-centers the bird with zero velocity, and
rebuilds exactly four pipes at `width/2 + 40·i`, each with a fresh gap. -/
theorem reset_state (g : Game) (gaps : ℕ → ℕ) :
    (Game.reset g gaps).high_score = g.high_score ∧
    (Game.reset g gaps).score = 0 ∧
    (Game.reset g gaps).is_new_record = false ∧
    (Game.reset g gaps).state = GameState.Playing ∧
    (Game.reset g gaps).bird = ⟨((g.height / 2 : ℕ) : ℚ), 0⟩ ∧
    (Game.reset g gaps).pipes =
      [ Pipe.new ((g.width : ℤ) / 2) (gaps 0),
        Pipe.new ((g.width : ℤ) / 2 + 40) (gaps 1),
        Pipe.new ((g.width : ℤ) / 2 + 80) (gaps 2),
        Pipe.new ((g.width : ℤ) / 2 + 120) (gaps 3) ] ∧
    (Game.reset g gaps).pipes.length = 4 ∧
    (Game.reset g gaps).width = g.width ∧
    (Game.reset g gaps).height = g.height := by
  norm_num [Game.reset, Bird.reset, initial_pipes]

/-- C10: with `HOME` unset, loading returns 0 and saving issues no write;
with `HOME` set, any file content whose trimmed form fails to parse as a
non-negative `u32` (for instance the negative number `" -5 "`) loads as 0. -/
theorem highscore_persistence_defaults :
    (∀ read, load_highscore none read = 0) ∧
    (∀ s, save_highscore none s = none) ∧
    (∀ home read content, read (home ++ "/.tflap_highscore") = some content →
      parse_u32 (rust_trim content) = none →
      load_highscore (some home) read = 0) ∧
    (∀ home read, read (home ++ "/.tflap_highscore") = some " -5 " →
      load_highscore (some home) read = 0) := by
  refine ⟨fun read => rfl, fun s => rfl, ?_, ?_⟩
  · intro home read content hr hp
    simp [load_highscore, get_highscore_path, hr, hp]
  · intro home read hr
    simp [load_highscore, get_highscore_path, hr]
    decide

/-- Witness for `highscore_persistence_defaults`: a stored `" -5 "` loads
as 0. -/
theorem highscore_persistence_defaults_witness :
    load_highscore (some "/home/u") (fun _ => some " -5 ") = 0 :=
  highscore_persistence_defaults.2.2.2 "/home/u" (fun _ => some " -5 ") rfl

/-- C8: scoring semantics of the pipe loop.  A pipe contributes exactly 1 to
the score on the tick its `passed` flag flips from false to true — precisely
when it was not yet passed and, after moving, the bird column is strictly past
its right edge — an already-passed pipe contributes 0 forever (its flag stays
true), the loop's total increment is the number of pipes flipped this tick,
and a surviving (non-boundary) `Game::update` adds exactly that total. -/
theorem score_increment_once (p : Pipe) (l : List Pipe) (g : Game) (gap : ℕ) :
    ((step_pipe p).2 = 1 ↔
      (p.passed = false ∧ (p.update).has_bird_passed BIRD_X = true)) ∧
    ((step_pipe p).2 = 1 ↔ (p.passed = false ∧ (step_pipe p).1.passed = true)) ∧
    (p.passed = true → (step_pipe p).1.passed = true ∧ (step_pipe p).2 = 0) ∧
    ((step_pipes l).2 =
      (l.filter (fun q => !q.passed && (q.update).has_bird_passed BIRD_X)).length) ∧
    (g.state = GameState.Playing →
      ¬(g.bird.update.y < 0 ∨ g.height ≤ toU16 g.bird.update.y) →
      (Game.update g gap).1.score = g.score + (step_pipes g.pipes).2) := by
  have key : ∀ q : Pipe,
      step_pipe q =
        if !q.passed && (q.update).has_bird_passed BIRD_X then
          ({ q.update with passed := true }, 1)
        else (q.update, 0) := fun q => rfl
  have h1 : ∀ q : Pipe, (step_pipe q).2 = 1 ↔
      (q.passed = false ∧ (q.update).has_bird_passed BIRD_X = true) := by
    intro q
    by_cases hc : (!q.passed && (q.update).has_bird_passed BIRD_X) = true
    · rw [key q, if_pos hc]
      simp only [Bool.and_eq_true, Bool.not_eq_true'] at hc
      simp [hc.1, hc.2]
    · rw [key q, if_neg hc]
      simp only [Bool.and_eq_true, Bool.not_eq_true', not_and] at hc
      simp only [show (0 : ℕ) ≠ 1 by decide, false_iff, not_and]
      intro ha hb
      exact hc ha hb
  refine ⟨h1 p, ?_, ?_, ?_, ?_⟩
  · by_cases hc : (!p.passed && (p.update).has_bird_passed BIRD_X) = true
    · rw [key p, if_pos hc]
      simp only [Bool.and_eq_true, Bool.not_eq_true'] at hc
      simp [hc.1]
    · rw [key p, if_neg hc]
      simp only [show (0 : ℕ) ≠ 1 by decide, false_iff, not_and]
      intro ha
      simp [Pipe.update, ha]
  · intro hp
    rw [key p, if_neg (by simp [hp])]
    exact ⟨hp, rfl⟩
  · induction l with
    | nil => rfl
    | cons a t ih =>
      simp only [step_pipes, List.map_cons, List.sum_cons] at ih ⊢
      rw [key a, List.filter_cons]
      by_cases hc : (!a.passed && (a.update).has_bird_passed BIRD_X) = true
      · rw [if_pos hc, if_pos hc]
        simp only [List.length_cons]
        omega
      · rw [if_neg hc, if_neg hc]
        simpa using ih
  · intro hP hB
    unfold Game.update
    rw [if_neg (by simp [hP]), if_neg hB]
    dsimp only
    split
    · rw [check_and_save_fst_score]
    · split
      · split
        · exact (spawn_fields _ _).2.1
        · rfl
      · rfl

/-- Witness for `score_increment_once`: the pipe at x = 4 is passed on this
tick (contribution 1); the same pipe already marked passed contributes 0. -/
theorem score_increment_once_witness :
    (step_pipe ⟨4, 5, false⟩).2 = 1 ∧
    (step_pipe ⟨4, 5, true⟩).1.passed = true ∧ (step_pipe ⟨4, 5, true⟩).2 = 0 :=
  ⟨(score_increment_once ⟨4, 5, false⟩ [] gC6 0).1.mpr ⟨rfl, by decide⟩,
   (score_increment_once ⟨4, 5, true⟩ [] gC6 0).2.2.1 rfl⟩

/-- C5: on a tick that transitions Playing → GameOver, if the score (at
death) strictly exceeds the stored high score then the tick sets
`high_score` to that score, latches `is_new_record`, and issues a save of
exactly that value; otherwise `high_score` and `is_new_record` are unchanged
and no save is issued. -/
theorem highscore_commit_on_death (g : Game) (gap : ℕ)
    (h1 : g.state = GameState.Playing)
    (h2 : (Game.update g gap).1.state = GameState.GameOver) :
    (g.high_score < (Game.update g gap).1.score →
      (Game.update g gap).1.high_score = (Game.update g gap).1.score ∧
      (Game.update g gap).1.is_new_record = true ∧
      (Game.update g gap).2 = some ((Game.update g gap).1.score)) ∧
    (¬ g.high_score < (Game.update g gap).1.score →
      (Game.update g gap).1.high_score = g.high_score ∧
      (Game.update g gap).1.is_new_record = g.is_new_record ∧
      (Game.update g gap).2 = none) := by
  have cs : ∀ gd : Game, gd.high_score = g.high_score → gd.is_new_record = g.is_new_record →
      (g.high_score < (gd.check_and_save_highscore).1.score →
        (gd.check_and_save_highscore).1.high_score = (gd.check_and_save_highscore).1.score ∧
        (gd.check_and_save_highscore).1.is_new_record = true ∧
        (gd.check_and_save_highscore).2 = some ((gd.check_and_save_highscore).1.score)) ∧
      (¬ g.high_score < (gd.check_and_save_highscore).1.score →
        (gd.check_and_save_highscore).1.high_score = g.high_score ∧
        (gd.check_and_save_highscore).1.is_new_record = g.is_new_record ∧
        (gd.check_and_save_highscore).2 = none) := by
    intro gd hh hr
    unfold Game.check_and_save_highscore
    by_cases hlt : gd.high_score < gd.score
    · rw [if_pos hlt]
      rw [hh] at hlt
      exact ⟨fun _ => ⟨rfl, rfl, rfl⟩, fun hn => absurd hlt hn⟩
    · rw [if_neg hlt]
      rw [hh] at hlt
      exact ⟨fun hlt2 => absurd hlt2 hlt, fun _ => ⟨hh, hr, rfl⟩⟩
  unfold Game.update at h2 ⊢
  rw [if_neg (by simp [h1])] at h2 ⊢
  dsimp only at h2 ⊢
  split
  · exact cs _ rfl rfl
  · split
    · exact cs _ rfl rfl
    · rename_i hb hcol
      rw [if_neg hb, if_neg hcol] at h2
      split at h2
      · split at h2
        · rw [(spawn_fields _ _).2.2.1] at h2
          rw [h1] at h2
          exact absurd h2 (by decide)
        · rw [h1] at h2
          exact absurd h2 (by decide)
      · rw [h1] at h2
        exact absurd h2 (by decide)

/-- Concrete Playing state (score 5, high score 3, bird about to cross the
bottom edge) used by the witness of `highscore_commit_on_death`. -/
def gC5 : Game := ⟨⟨199/10, 0⟩, [⟨30, 5, false⟩], 5, 3, false, GameState.Playing, 80, 20⟩

/-- Witness for `highscore_commit_on_death`: the spec's scenario — dying with
score 5 against a stored high score of 3 commits and saves 5. -/
theorem highscore_commit_on_death_witness :
    (Game.update gC5 0).1.high_score = (Game.update gC5 0).1.score ∧
    (Game.update gC5 0).1.is_new_record = true ∧
    (Game.update gC5 0).2 = some ((Game.update gC5 0).1.score) :=
  (highscore_commit_on_death gC5 0 rfl
      (by norm_num [gC5, Game.update, Bird.update, toU16, step_pipes, step_pipe,
            Pipe.update, Pipe.has_bird_passed, Pipe.collides_with, Pipe.is_offscreen,
            Game.spawn_pipe, Game.check_and_save_highscore, Pipe.new,
            GRAVITY, BIRD_X, PIPE_WIDTH, PIPE_GAP, PIPE_SPEED]
          decide)).1
    (by norm_num [gC5, Game.update, Bird.update, toU16, step_pipes, step_pipe,
          Pipe.update, Pipe.has_bird_passed, Pipe.collides_with, Pipe.is_offscreen,
          Game.spawn_pipe, Game.check_and_save_highscore, Pipe.new,
          GRAVITY, BIRD_X, PIPE_WIDTH, PIPE_GAP, PIPE_SPEED]
        decide)

/-- Concrete mid-run counterexample state for C2: one pipe about to be
passed, score 0 = high score, bird safely inside the play area. -/
def gC2 : Game := ⟨⟨10, 0⟩, [⟨4, 5, false⟩], 0, 0, false, GameState.Playing, 80, 20⟩

/-- C2 counterexample: after this Playing tick the score (1) exceeds the high
score loaded at the start of the run (0), yet `is_new_record` is still false
and the game is still Playing — the flag is not latched the tick the score
first exceeds the high score, contradicting the claim. -/
theorem new_record_not_latched_mid_run :
    (Game.update gC2 7).1.state = GameState.Playing ∧
    gC2.high_score < (Game.update gC2 7).1.score ∧
    (Game.update gC2 7).1.is_new_record = false := by
  norm_num [gC2, Game.update, Bird.update, toU16, step_pipes, step_pipe,
    Pipe.update, Pipe.has_bird_passed, Pipe.collides_with, Pipe.is_offscreen,
    Game.spawn_pipe, Game.check_and_save_highscore, Pipe.new,
    GRAVITY, BIRD_X, PIPE_WIDTH, PIPE_GAP, PIPE_SPEED]
  decide

/-- C2 (amended): during a run `is_new_record` changes only on the tick that
transitions to GameOver — after any Playing tick it is true iff it was
already true or the tick ended in GameOver with the final score exceeding
the high score held since the start of the run — and `reset` clears it. -/
theorem new_record_latch_on_death (g : Game) (gap : ℕ) (gaps : ℕ → ℕ)
    (h : g.state = GameState.Playing) :
    ((Game.update g gap).1.is_new_record = true ↔
      (g.is_new_record = true ∨
        ((Game.update g gap).1.state = GameState.GameOver ∧
          g.high_score < (Game.update g gap).1.score))) ∧
    (Game.reset g gaps).is_new_record = false := by
  refine ⟨?_, rfl⟩
  have cs : ∀ gd : Game, gd.high_score = g.high_score → gd.is_new_record = g.is_new_record →
      gd.state = GameState.GameOver →
      ((gd.check_and_save_highscore).1.is_new_record = true ↔
        (g.is_new_record = true ∨
          ((gd.check_and_save_highscore).1.state = GameState.GameOver ∧
            g.high_score < (gd.check_and_save_highscore).1.score))) := by
    intro gd hh hr hs
    rw [check_and_save_fst_state, check_and_save_fst_score, hs]
    unfold Game.check_and_save_highscore
    by_cases hlt : gd.high_score < gd.score
    · rw [if_pos hlt]
      rw [hh] at hlt
      simp [hlt]
    · rw [if_neg hlt]
      rw [hh] at hlt
      simp [hlt, hr]
  unfold Game.update
  rw [if_neg (by simp [h])]
  dsimp only
  split
  · exact cs _ rfl rfl rfl
  · split
    · exact cs _ rfl rfl rfl
    · split
      · split
        · rw [(spawn_fields _ _).2.2.1, (spawn_fields _ _).2.2.2.1]
          simp [h]
        · simp [h]
      · simp [h]

/-- Concrete dying state (score 5, high score 3, bird below the bottom edge)
used by the witness of `new_record_latch_on_death`. -/
def gC2w : Game := ⟨⟨25, 0⟩, [⟨30, 5, false⟩], 5, 3, false, GameState.Playing, 80, 20⟩

/-- Witness for `new_record_latch_on_death`: the latch fires on a GameOver
tick whose score exceeds the run's starting high score, and reset clears it. -/
theorem new_record_latch_on_death_witness :
    (Game.update gC2w 0).1.is_new_record = true ∧
    (Game.reset gC2w (fun _ => 4)).is_new_record = false :=
  ⟨(new_record_latch_on_death gC2w 0 (fun _ => 4) rfl).1.mpr
      (Or.inr
        ⟨by norm_num [gC2w, Game.update, Bird.update, toU16, step_pipes, step_pipe,
              Pipe.update, Pipe.has_bird_passed, Pipe.collides_with, Pipe.is_offscreen,
              Game.spawn_pipe, Game.check_and_save_highscore, Pipe.new,
              GRAVITY, BIRD_X, PIPE_WIDTH, PIPE_GAP, PIPE_SPEED]
            decide,
         by norm_num [gC2w, Game.update, Bird.update, toU16, step_pipes, step_pipe,
              Pipe.update, Pipe.has_bird_passed, Pipe.collides_with, Pipe.is_offscreen,
              Game.spawn_pipe, Game.check_and_save_highscore, Pipe.new,
              GRAVITY, BIRD_X, PIPE_WIDTH, PIPE_GAP, PIPE_SPEED]
            decide⟩),
   (new_record_latch_on_death gC2w 0 (fun _ => 4) rfl).2⟩

theorem step_pipe_x (q : Pipe) : ((step_pipe q).1).x = q.x - 1 := by
  unfold step_pipe
  dsimp only
  split <;> simp [Pipe.update, PIPE_SPEED]

theorem spaced40_step (l : List Pipe) (h : spaced40 l) :
    spaced40 ((step_pipes l).1) := by
  show spaced40 (l.map fun p => (step_pipe p).1)
  rw [spaced40, List.chain'_map]
  refine h.imp ?_
  intro a b hab
  rw [step_pipe_x a, step_pipe_x b]
  omega

theorem keep_all (t : List Pipe) : ∀ p : Pipe,
    List.Chain (fun a b => b.x = a.x + 40) p t →
    ¬(p.x + (PIPE_WIDTH : ℤ) ≤ 0) →
    List.filter (fun q => !q.is_offscreen) (p :: t) = p :: t := by
  induction t with
  | nil =>
    intro p _ hp
    simp [Pipe.is_offscreen, hp]
  | cons q t' ih =>
    intro p hchain hp
    rw [List.chain_cons] at hchain
    obtain ⟨hpq, hchain'⟩ := hchain
    have hq : ¬(q.x + (PIPE_WIDTH : ℤ) ≤ 0) := by
      simp only [PIPE_WIDTH] at hp ⊢
      omega
    rw [List.filter_cons, if_pos (by simp [Pipe.is_offscreen, hp]), ih q hchain' hq]

theorem spaced40_filter (l : List Pipe) (h : spaced40 l) :
    spaced40 (l.filter fun q => !q.is_offscreen) := by
  induction l with
  | nil => simpa using h
  | cons p t ih =>
    have ht : spaced40 t := h.tail
    have hchain : List.Chain (fun a b => b.x = a.x + 40) p t := h
    by_cases hp : p.x + (PIPE_WIDTH : ℤ) ≤ 0
    · rw [List.filter_cons, if_neg (by simp [Pipe.is_offscreen, hp])]
      exact ih ht
    · rw [keep_all t p hchain hp]
      exact h

theorem spaced40_append_last (l : List Pipe) (last : Pipe) (gap : ℕ)
    (h : spaced40 l) (hl : l.getLast? = some last) :
    spaced40 (l ++ [Pipe.new (last.x + 40) gap]) := by
  rw [spaced40, List.chain'_append]
  refine ⟨h, List.chain'_singleton _, ?_⟩
  intro x hx y hy
  rw [hl] at hx
  simp only [Option.mem_def, Option.some.injEq] at hx
  simp only [List.head?_cons, Option.mem_def, Option.some.injEq] at hy
  subst hx
  subst hy
  rfl

/-- C9: consecutive live pipes are always exactly 40 apart (hence sorted
strictly left-to-right): the invariant holds for the four initial pipes of
`Game::new` and of `Game::reset`, `Game::update` preserves it through moving
(uniform shift), culling (which removes a prefix, since `is_offscreen` is
downward closed along the increasing positions) and spawning (append at
`last.x + 40`), and `Game::jump` leaves the pipes untouched. -/
theorem pipe_spacing_invariant (w h : ℕ) (home : Option String)
    (read : String → Option String) (gaps : ℕ → ℕ) (g : Game) (gap : ℕ)
    (l : List Pipe) :
    spaced40 (Game.new w h home read gaps).pipes ∧
    spaced40 (Game.reset g gaps).pipes ∧
    (spaced40 g.pipes → spaced40 ((Game.update g gap).1).pipes) ∧
    (Game.jump g).pipes = g.pipes ∧
    (spaced40 l → l.Pairwise (fun p q => p.x < q.x)) := by
  have hinit : ∀ w', spaced40 (initial_pipes w' gaps) := by
    intro w'
    simp only [initial_pipes, spaced40, List.chain'_cons, List.chain'_singleton,
      Pipe.new, and_true]
    omega
  refine ⟨hinit w, hinit g.width, ?_, ?_, ?_⟩
  · intro hsp
    unfold Game.update
    by_cases hst : g.state = GameState.Playing
    · rw [if_neg (by simp [hst])]
      dsimp only
      split
      · rw [check_and_save_fst_pipes]
        exact hsp
      · split
        · rw [check_and_save_fst_pipes]
          exact spaced40_step g.pipes hsp
        · have hculled :
              spaced40 ((step_pipes g.pipes).1.filter fun q => !q.is_offscreen) :=
            spaced40_filter _ (spaced40_step g.pipes hsp)
          split
          · rename_i last heq
            split
            · unfold Game.spawn_pipe
              dsimp only
              rw [heq]
              exact spaced40_append_last _ last gap hculled heq
            · exact hculled
          · rename_i heq
            rw [List.getLast?_eq_none_iff] at heq
            rw [heq]
            exact List.chain'_singleton _
    · rw [if_pos (by simp [hst])]
      exact hsp
  · unfold Game.jump
    split <;> rfl
  · intro hl
    have hchl : List.Chain' (fun p q : Pipe => p.x < q.x) l := by
      refine hl.imp ?_
      intro a b hab
      omega
    haveI : IsTrans Pipe (fun p q : Pipe => p.x < q.x) :=
      ⟨fun a b c hab hbc => lt_trans hab hbc⟩
    exact List.chain'_iff_pairwise.mp hchl

/-- Concrete Playing state with two pipes 40 apart, used by the witness of
`pipe_spacing_invariant`. -/
def gC9 : Game :=
  ⟨⟨10, 0⟩, [⟨30, 4, false⟩, ⟨70, 6, false⟩], 0, 0, false, GameState.Playing, 80, 20⟩

/-- Witness for `pipe_spacing_invariant`: a tick on a concrete 40-spaced
state keeps the spacing, and the spacing makes the pipes strictly sorted. -/
theorem pipe_spacing_invariant_witness :
    spaced40 ((Game.update gC9 5).1).pipes ∧
    List.Pairwise (fun p q : Pipe => p.x < q.x) gC9.pipes :=
  ⟨(pipe_spacing_invariant 80 20 none (fun _ => none) (fun _ => 5) gC9 5 []).2.2.1
      (by simp [gC9, spaced40, List.chain'_cons, List.chain'_singleton]),
   (pipe_spacing_invariant 80 20 none (fun _ => none) (fun _ => 5) gC9 5
        gC9.pipes).2.2.2.2
      (by simp [gC9, spaced40, List.chain'_cons, List.chain'_singleton])⟩

end Tflap
